import Mathlib

/-!
Shallow embedding of `src/heap_monitor.py` (Heap Dump Monitor): the
`HeapDumpReport` data model, the `ReportManager` record store, the
`HeapDumpProcessor.process_heap_dump` analyzer wrapper, the
`HeapDumpHandler` intake filter, machine-name extraction, and the
background write-back performed by `HeapDumpHandler._background_process`.

Python `datetime` values are modelled at second granularity by an explicit
`Timestamp` structure; wall-clock durations (Python floats produced by
`time.time() - start_time`) are modelled as rationals, which is exact for
every value the claims mention.  The Python dict `ReportManager.reports`
is modelled as an association list with dict-assignment semantics
(overwrite in place when the key exists, append otherwise).
-/

set_option autoImplicit false

namespace HeapMonitor

/-- A `datetime` at second granularity: the only operations the source
applies to `HeapDumpReport.timestamp` are `strftime('%Y%m%d_%H%M%S')` and
`.date()`, both determined by these six fields. -/
structure Timestamp where
  year : Nat
  month : Nat
  day : Nat
  hour : Nat
  minute : Nat
  second : Nat
deriving DecidableEq, Repr

/-- The date component, as `datetime.date()` returns it. -/
structure Date where
  year : Nat
  month : Nat
  day : Nat
deriving DecidableEq, Repr

/-- `Timestamp.date`: the date component of a timestamp. -/
def Timestamp.date (t : Timestamp) : Date :=
  ⟨t.year, t.month, t.day⟩

/-- The `HeapDumpReport` dataclass (heap_monitor.py lines 35-46).  `status`
is one of the strings "processing", "completed", "failed"; the four
optional fields default to `None`. -/
structure Report where
  machine_name : String
  timestamp : Timestamp
  filename : String
  file_path : String
  status : String
  suspects_report : Option String := none
  overview_report : Option String := none
  error_message : Option String := none
  processing_time : Option ℚ := none
deriving DecidableEq, Repr

/-- Decimal rendering of `n` left-padded with zeros to width `w`, as
`strftime` zero-padded fields render (`%m`, `%d`, `%H`, `%M`, `%S` pad to
2; `%Y` renders the 4 digits of a `datetime.now()` year). -/
def padNat (w n : Nat) : String :=
  let s := toString n
  String.mk (List.replicate (w - s.length) '0') ++ s

/-- `timestamp.strftime('%Y%m%d_%H%M%S')` (used at lines 197 and 203). -/
def fmtTimestamp (t : Timestamp) : String :=
  padNat 4 t.year ++ padNat 2 t.month ++ padNat 2 t.day ++ "_" ++
    padNat 2 t.hour ++ padNat 2 t.minute ++ padNat 2 t.second

/-- The report id `f"{report.machine_name}_{report.timestamp.strftime('%Y%m%d_%H%M%S')}"`
computed identically by `add_report` (line 197) and `update_report` (line 203). -/
def reportId (r : Report) : String :=
  r.machine_name ++ "_" ++ fmtTimestamp r.timestamp

/-- The dict `ReportManager.reports`, as an association list.  The store
invariant (Python dict keys are unique) is `(st.map Prod.fst).Nodup`. -/
abbrev Store := List (String × Report)

/-- `key in dict` membership test. -/
def containsKey (st : Store) (k : String) : Bool :=
  st.any (fun e => e.1 = k)

/-- `dict.get(key)`: the value at `k`, if present. -/
def lookupEntry (st : Store) (k : String) : Option Report :=
  match st with
  | [] => none
  | e :: rest => if e.1 = k then some e.2 else lookupEntry rest k

/-- `dict[k] = v`: overwrite in place when `k` is already a key, append
otherwise (Python dict-assignment semantics). -/
def setEntry (st : Store) (k : String) (v : Report) : Store :=
  match st with
  | [] => [(k, v)]
  | e :: rest => if e.1 = k then (k, v) :: rest else e :: setEntry rest k v

/-- `ReportManager.add_report` (lines 194-198): computes the id from the
report's own fields and assigns `self.reports[report_id] = report`,
overwriting any existing entry. -/
def addReport (st : Store) (r : Report) : Store :=
  setEntry st (reportId r) r

/-- A log record emitted at a given level ("info", "warning", "error"). -/
structure LogMsg where
  level : String
  text : String
deriving DecidableEq, Repr

/-- `ReportManager.update_report` (lines 200-205): recomputes the id and
replaces the entry only when `report_id in self.reports`; otherwise the
body is a no-op.  The second component is the list of log records the
function emits: the source contains no logging call in either branch. -/
def updateReport (st : Store) (r : Report) : Store × List LogMsg :=
  if containsKey st (reportId r) then (setEntry st (reportId r) r, []) else (st, [])

/-- `ReportManager.get_all_reports` (lines 221-224): `list(self.reports.values())`. -/
def getAllReports (st : Store) : List Report :=
  st.map Prod.snd

/-- `ReportManager.get_reports_by_machine` (lines 207-210). -/
def getReportsByMachine (st : Store) (machine_name : String) : List Report :=
  (getAllReports st).filter (fun r => r.machine_name = machine_name)

/-- Python's leap-year rule (`calendar.isleap`), as `datetime` uses it to
validate a day-of-month. -/
def isLeapYear (y : Nat) : Bool :=
  y % 4 = 0 && (y % 100 ≠ 0 || y % 400 = 0)

/-- Number of days of month `m` in year `y`, as `datetime` validates. -/
def daysInMonth (y m : Nat) : Nat :=
  if m = 2 then (if isLeapYear y then 29 else 28)
  else if m = 4 || m = 6 || m = 9 || m = 11 then 30
  else 31

/-- Value of a list of decimal digit characters. -/
def digitsToNat (ds : List Char) : Nat :=
  ds.foldl (fun n c => n * 10 + (c.toNat - 48)) 0

/-- `datetime.strptime(date_str, '%Y-%m-%d').date()` wrapped in
`try/except ValueError` (lines 214-219): CPython's `_strptime` matches
`%Y` as exactly four digits, `%m` and `%d` as one or two digits, requires
the whole string to be consumed, and `datetime` then rejects month 0 or
over 12, day 0 or past the month's length, and year 0 (below `MINYEAR`).
`none` models the `ValueError` path. -/
def parseDate (s : String) : Option Date :=
  match s.data with
  | y1 :: y2 :: y3 :: y4 :: '-' :: rest =>
    if y1.isDigit && y2.isDigit && y3.isDigit && y4.isDigit then
      let y := digitsToNat [y1, y2, y3, y4]
      let mds := rest.takeWhile Char.isDigit
      match rest.dropWhile Char.isDigit with
      | '-' :: rest2 =>
        let dds := rest2.takeWhile Char.isDigit
        if rest2.dropWhile Char.isDigit = [] ∧ 1 ≤ mds.length ∧ mds.length ≤ 2 ∧
            1 ≤ dds.length ∧ dds.length ≤ 2 then
          let m := digitsToNat mds
          let d := digitsToNat dds
          if 1 ≤ y ∧ 1 ≤ m ∧ m ≤ 12 ∧ 1 ≤ d ∧ d ≤ daysInMonth y m then
            some ⟨y, m, d⟩
          else none
        else none
      | _ => none
    else none
  | _ => none

/-- `ReportManager.get_reports_by_date` (lines 212-219): parse the date
string, return the reports whose `timestamp.date()` equals it, and return
`[]` when parsing raises `ValueError`. -/
def getReportsByDate (st : Store) (date_str : String) : List Report :=
  match parseDate date_str with
  | none => []
  | some d => (getAllReports st).filter (fun r => r.timestamp.date = d)

/-- `os.path.basename` for a POSIX path: the part after the last '/'. -/
def basename (p : String) : String :=
  String.mk (p.data.reverse.takeWhile (fun c => c ≠ '/')).reverse

/-- `os.path.dirname` for a POSIX path: everything up to the last '/',
with trailing slashes stripped unless the head is all slashes. -/
def dirname (p : String) : String :=
  let restRev := p.data.reverse.dropWhile (fun c => c ≠ '/')
  if restRev = [] then ""
  else if restRev.all (fun c => c = '/') then String.mk restRev.reverse
  else String.mk ((restRev.dropWhile (fun c => c = '/')).reverse)

/-- `os.path.join(head, t)` for a POSIX path and one extra component. -/
def joinPath (head t : String) : String :=
  if t.startsWith "/" then t
  else if head = "" || head.endsWith "/" then head ++ t
  else head ++ "/" ++ t

/-- The root component of `os.path.splitext(s)` for a basename (no '/'):
cut at the last '.', except that a name whose every character before that
last dot is itself a dot (such as ".hprof") is not split. -/
def splitextBase (s : String) : String :=
  let cs := s.data
  let afterRev := cs.reverse.takeWhile (fun c => c ≠ '.')
  if afterRev.length = cs.length then s
  else
    let pre := cs.take (cs.length - afterRev.length - 1)
    if pre.all (fun c => c = '.') then s else String.mk pre

/-- Outcome of the `subprocess.run` invocation of the analyzer container
inside `process_heap_dump`: the process exits with a code and captured
stderr, the 3600-second timeout fires (`subprocess.TimeoutExpired`), or
some other exception is raised and caught by the generic handler at
line 102. -/
inductive RunResult where
  | exited (returncode : Int) (stderr : String)
  | timedOut
  | raised (msg : String)
deriving DecidableEq, Repr

/-- The result dict returned by `process_heap_dump`.  A key that is absent
from the dict and a key whose value is `None` are both `none`: the caller
reads every optional key with `dict.get`, which yields `None` for a
missing key. -/
structure ProcResult where
  status : String
  suspects_report : Option String := none
  overview_report : Option String := none
  error_message : Option String := none
  processing_time : Option ℚ := none
deriving DecidableEq, Repr

/-- Derived artifact path `os.path.join(file_dir, f"{base_name}_Leak_Suspects.html")`
(line 80). -/
def suspectsPath (file_path : String) : String :=
  joinPath (dirname file_path) (splitextBase (basename file_path) ++ "_Leak_Suspects.html")

/-- Derived artifact path `os.path.join(file_dir, f"{base_name}_System_Overview.html")`
(line 81). -/
def overviewPath (file_path : String) : String :=
  joinPath (dirname file_path) (splitextBase (basename file_path) ++ "_System_Overview.html")

/-- `HeapDumpProcessor.process_heap_dump` (lines 54-108).  `run` is the
external invocation's outcome, `elapsed` the wall-clock duration
`time.time() - start_time` at the moment the invocation returned or
raised, and `onDisk` the `os.path.exists` view of the filesystem when
lines 84-85 test the two derived artifact paths. -/
def processHeapDump (file_path : String) (run : RunResult) (elapsed : ℚ)
    (onDisk : String → Bool) : ProcResult :=
  match run with
  | RunResult.exited returncode stderr =>
    if returncode = 0 then
      { status := "completed"
        suspects_report :=
          if onDisk (suspectsPath file_path) then some (suspectsPath file_path) else none
        overview_report :=
          if onDisk (overviewPath file_path) then some (overviewPath file_path) else none
        processing_time := some elapsed }
    else
      { status := "failed", error_message := some stderr, processing_time := some elapsed }
  | RunResult.timedOut =>
    { status := "failed"
      error_message := some "Processing timeout (1 hour exceeded)"
      processing_time := some 3600 }
  | RunResult.raised msg =>
    { status := "failed", error_message := some msg, processing_time := some elapsed }

/-- The report object with all five result fields applied, i.e. its value
once lines 158-162 of `_background_process` have all executed. -/
def applyResult (r : Report) (res : ProcResult) : Report :=
  { r with status := res.status, suspects_report := res.suspects_report,
           overview_report := res.overview_report, error_message := res.error_message,
           processing_time := res.processing_time }

/-- The successive values of the report object during the field-by-field
update at lines 158-162 of `_background_process`: element 0 is the value
before the write-back begins, element `i` the value after the first `i`
assignments (`status`, `suspects_report`, `overview_report`,
`error_message`, `processing_time`, in source order).  The store's dict
entry holds a reference to this same object (`add_report` stored the
object itself), and the five assignments run without holding the store
lock. -/
def writeBackStates (r : Report) (res : ProcResult) : List Report :=
  [r,
   { r with status := res.status },
   { r with status := res.status, suspects_report := res.suspects_report },
   { r with status := res.status, suspects_report := res.suspects_report,
            overview_report := res.overview_report },
   { r with status := res.status, suspects_report := res.suspects_report,
            overview_report := res.overview_report, error_message := res.error_message },
   applyResult r res]

/-- What `get_all_reports()` hands a reader who acquires the store lock
after the background task's first `i` field assignments, for a store whose
single entry is the report being written back: `list(self.reports.values())`
copies the list of object references, so the reader sees the object's
field values as they stand at that moment. -/
def observedGetAll (r : Report) (res : ProcResult) (i : Nat) : List Report :=
  [(writeBackStates r res).getD i (applyResult r res)]

/-- A store operation: the two mutations `ReportManager` offers. -/
inductive StoreOp where
  | insertOp (id : String) (r : Report)
  | updateOp (id : String) (r : Report)
deriving DecidableEq, Repr

/-- `_background_process` (lines 153-172), summarised as the final value of
the report object together with the store operations the task performs:
the result of `process_heap_dump` is applied to the report's fields and
`update_report` is called exactly once.  (`process_heap_dump` is total -
its own `except` clauses catch the timeout and any other exception - and
nothing in lines 157-167 raises, so the `except` branch at lines 168-171
is dead for the modelled outcomes; no retry of any kind exists in the
source.) -/
def backgroundProcess (r : Report) (res : ProcResult) : Report × List StoreOp :=
  (applyResult r res, [StoreOp.updateOp (reportId (applyResult r res)) (applyResult r res)])

/-- Regex `^([^_]+)_.*` under `re.match`: a nonempty run of
non-underscore characters, then '_'; the trailing `.*` is unanchored and
may match the empty string, so it constrains nothing.  The captured group
is the maximal run before the first underscore. -/
def pat1 (cs : List Char) : Option (List Char) :=
  let tok := cs.takeWhile (fun c => c ≠ '_')
  if tok ≠ [] ∧ cs.dropWhile (fun c => c ≠ '_') ≠ [] then some tok else none

/-- Regex `.*_([^_]+)_.*` under `re.match`, with the greedy leading `.*`
(which cannot cross a newline): the match anchors the group after the
RIGHTMOST underscore that lies before any newline and is followed by a
nonempty underscore-free run and then another underscore.  The scan goes
left to right, a later candidate replacing an earlier one. -/
def pat2Go : List Char → Option (List Char) → Option (List Char)
  | [], best => best
  | c :: rest, best =>
    if c = '\n' then best
    else if c = '_' then
      if rest.takeWhile (fun x => x ≠ '_') ≠ [] ∧ rest.dropWhile (fun x => x ≠ '_') ≠ [] then
        pat2Go rest (some (rest.takeWhile (fun x => x ≠ '_')))
      else pat2Go rest best
    else pat2Go rest best

/-- Regex `.*_([^_]+)_.*` under `re.match` (see `pat2Go`). -/
def pat2 (cs : List Char) : Option (List Char) :=
  pat2Go cs none

/-- Regex `^([^.]+)\..*` under `re.match`: a nonempty run of non-dot
characters, then '.'.  The captured group is the maximal run before the
FIRST dot. -/
def pat3 (cs : List Char) : Option (List Char) :=
  let tok := cs.takeWhile (fun c => c ≠ '.')
  if tok ≠ [] ∧ cs.dropWhile (fun c => c ≠ '.') ≠ [] then some tok else none

/-- `HeapDumpHandler._extract_machine_name` (lines 174-186): the three
regular expressions tried in order, the first match returning its group 1,
with `os.path.splitext(filename)[0]` as the final fallback. -/
def extractMachineName (filename : String) : String :=
  match pat1 filename.data with
  | some tok => String.mk tok
  | none =>
    match pat2 filename.data with
    | some tok => String.mk tok
    | none =>
      match pat3 filename.data with
      | some tok => String.mk tok
      | none => splitextBase filename

/-- `self.heap_dump_extensions` (line 116). -/
def heapDumpExtensions : List String := [".hprof", ".dump", ".bin"]

/-- Python `str.lower` on the ASCII range (the only characters the
extension comparison can accept). -/
def lowerStr (s : String) : String :=
  String.mk (s.data.map Char.toLower)

/-- `str.endswith(suffix)`: character-level suffix test. -/
def endsWithStr (p suf : String) : Bool :=
  suf.data.reverse.isPrefixOf p.data.reverse

/-- The test `any(file_path.lower().endswith(ext) for ext in self.heap_dump_extensions)`
at line 122. -/
def isHeapDumpName (p : String) : Bool :=
  heapDumpExtensions.any (fun e => endsWithStr (lowerStr p) e)

/-- `HeapDumpHandler.on_created` (lines 118-125): `some path` when the
event is forwarded to `_process_heap_dump` (after the 2-second settle
delay), `none` when it is ignored - a directory event or an unmatched
extension returns before any record is created. -/
def onCreated (is_directory : Bool) (src_path : String) : Option String :=
  if is_directory then none
  else if isHeapDumpName src_path then some src_path else none

/-- `get_status` (lines 322-335): the handler calls `get_all_reports()`
FOUR separate times; each call takes and releases the store lock on its
own, and concurrent `add_report`/`update_report` calls may run between
them, so each of the four counts is computed over its own snapshot.
Modelled as a function of the four snapshots the four passes observe;
a run with no interleaved mutation has `s1 = s2 = s3 = s4`. -/
def getStatus (s1 s2 s3 s4 : List Report) : Nat × Nat × Nat × Nat :=
  (s1.length,
   (s2.filter (fun r => r.status = "processing")).length,
   (s3.filter (fun r => r.status = "completed")).length,
   (s4.filter (fun r => r.status = "failed")).length)

/-- A freshly submitted report, exactly as `_process_heap_dump` creates it
before handing it to `add_report`. -/
def exReport : Report :=
  { machine_name := "web01"
    timestamp := ⟨2024, 3, 1, 12, 0, 0⟩
    filename := "web01_20240301.hprof"
    file_path := "/dump/web01_20240301.hprof"
    status := "processing" }

/-- A second report from the same machine detected within the same second
as `exReport` (a different file, the same id). -/
def exReport2 : Report :=
  { exReport with filename := "web01_b.hprof", file_path := "/dump/web01_b.hprof" }

/-- The processing result of a run that exited with status 0 after 7
seconds and left no artifact file on disk. -/
def exResult : ProcResult :=
  processHeapDump "/dump/web01_20240301.hprof" (RunResult.exited 0 "") 7 (fun _ => false)

/-! ### Association-list lemmas for the store -/

theorem mem_keys_setEntry (st : Store) (k : String) (v : Report) (x : String) :
    x ∈ (setEntry st k v).map Prod.fst ↔ x ∈ st.map Prod.fst ∨ x = k := by
  induction st with
  | nil => simp [setEntry]
  | cons e rest ih =>
    obtain ⟨a, b⟩ := e
    by_cases h : a = k
    · subst h
      simp only [setEntry, if_pos, List.map_cons, List.mem_cons]
      tauto
    · simp only [setEntry, if_neg h, List.map_cons, List.mem_cons, ih]
      tauto

theorem nodup_keys_setEntry (st : Store) (k : String) (v : Report)
    (h : (st.map Prod.fst).Nodup) : ((setEntry st k v).map Prod.fst).Nodup := by
  induction st with
  | nil => simp [setEntry]
  | cons e rest ih =>
    obtain ⟨a, b⟩ := e
    simp only [List.map_cons, List.nodup_cons] at h
    by_cases he : a = k
    · subst he
      simp only [setEntry, if_pos, List.map_cons, List.nodup_cons]
      exact h
    · simp only [setEntry, if_neg he, List.map_cons, List.nodup_cons]
      refine ⟨?_, ih h.2⟩
      rw [mem_keys_setEntry]
      rintro (hx | hx)
      · exact h.1 hx
      · exact he hx

theorem lookupEntry_setEntry_self (st : Store) (k : String) (v : Report) :
    lookupEntry (setEntry st k v) k = some v := by
  induction st with
  | nil => simp [setEntry, lookupEntry]
  | cons e rest ih =>
    obtain ⟨a, b⟩ := e
    by_cases h : a = k
    · subst h
      simp [setEntry, lookupEntry]
    · simp [setEntry, lookupEntry, h, ih]

theorem lookupEntry_setEntry_other (st : Store) (k k2 : String) (v : Report)
    (h : k2 ≠ k) : lookupEntry (setEntry st k v) k2 = lookupEntry st k2 := by
  induction st with
  | nil => simp [setEntry, lookupEntry, Ne.symm h]
  | cons e rest ih =>
    obtain ⟨a, b⟩ := e
    by_cases he : a = k
    · subst he
      simp [setEntry, lookupEntry, Ne.symm h]
    · simp [setEntry, lookupEntry, he, ih]

theorem filter_key_eq_nil (st : Store) (k : String) (h : k ∉ st.map Prod.fst) :
    st.filter (fun e => e.1 = k) = [] := by
  induction st with
  | nil => simp
  | cons e rest ih =>
    obtain ⟨a, b⟩ := e
    simp only [List.map_cons, List.mem_cons, not_or] at h
    have ha : ¬ a = k := fun hx => h.1 hx.symm
    simp [List.filter_cons, ha, ih h.2]

theorem filter_setEntry_self (st : Store) (k : String) (v : Report)
    (h : (st.map Prod.fst).Nodup) :
    (setEntry st k v).filter (fun e => e.1 = k) = [(k, v)] := by
  induction st with
  | nil => simp [setEntry]
  | cons e rest ih =>
    obtain ⟨a, b⟩ := e
    simp only [List.map_cons, List.nodup_cons] at h
    by_cases he : a = k
    · subst he
      simp only [setEntry, if_pos]
      simp [List.filter_cons, filter_key_eq_nil rest a h.1]
    · simp only [setEntry, if_neg he, List.filter_cons]
      simp [he, ih h.2]

/-! ### Pattern and path helper lemmas -/

theorem pat1_some_ne_nil (cs tok : List Char) (h : pat1 cs = some tok) : tok ≠ [] := by
  simp only [pat1] at h
  split_ifs at h with hc
  exact (Option.some.inj h) ▸ hc.1

theorem pat3_some_ne_nil (cs tok : List Char) (h : pat3 cs = some tok) : tok ≠ [] := by
  simp only [pat3] at h
  split_ifs at h with hc
  exact (Option.some.inj h) ▸ hc.1

theorem pat2Go_some_ne_nil (cs : List Char) (best : Option (List Char))
    (hb : ∀ t, best = some t → t ≠ []) :
    ∀ t, pat2Go cs best = some t → t ≠ [] := by
  induction cs generalizing best with
  | nil => exact hb
  | cons c rest ih =>
    intro t ht
    simp only [pat2Go] at ht
    by_cases hn : c = '\n'
    · rw [if_pos hn] at ht
      exact hb t ht
    · rw [if_neg hn] at ht
      by_cases hu : c = '_'
      · rw [if_pos hu] at ht
        by_cases hc : rest.takeWhile (fun x => x ≠ '_') ≠ [] ∧ rest.dropWhile (fun x => x ≠ '_') ≠ []
        · rw [if_pos hc] at ht
          refine ih _ ?_ t ht
          intro t2 ht2
          rw [← Option.some.inj ht2]
          exact hc.1
        · rw [if_neg hc] at ht
          exact ih best hb t ht
      · rw [if_neg hu] at ht
        exact ih best hb t ht

theorem pat2_some_ne_nil (cs tok : List Char) (h : pat2 cs = some tok) : tok ≠ [] := by
  refine pat2Go_some_ne_nil cs none ?_ tok h
  intro t ht
  simp at ht

theorem splitextBase_ne_empty (s : String) (h : s ≠ "") : splitextBase s ≠ "" := by
  simp only [splitextBase]
  split_ifs with h1 h2
  · exact h
  · exact h
  · intro hx
    apply h2
    have hpre : s.data.take
        (s.data.length - (s.data.reverse.takeWhile (fun c => c ≠ '.')).length - 1) = [] := by
      have hdx := congrArg String.data hx
      simpa using hdx
    rw [hpre]
    simp

theorem isHeapDumpName_eq (p : String) :
    isHeapDumpName p = (endsWithStr (lowerStr p) ".hprof" ||
      (endsWithStr (lowerStr p) ".dump" || endsWithStr (lowerStr p) ".bin")) := by
  simp [isHeapDumpName, heapDumpExtensions, List.any]

/-! ### The claims -/

/-- C1 (code bug): a reader CAN observe a half-written record.
`add_report` stores the report object itself in the dict, and
`_background_process` then mutates that same object field by field at
lines 158-162 without holding the store lock, so a reader who calls
`get_all_reports` between the first assignment (`status`) and the last
(`processing_time`) observes - here after a completed 7-second run - a
record value that is neither the record as inserted nor the record as
finally written back: its status is already "completed" while its
`processing_time` is still `None`, a combination no complete write-back
produces.  This contradicts the claim that no reader ever observes a
half-written record and that `getAll` snapshots are independent of
subsequent mutation. -/
theorem C1_torn_read_observed :
    observedGetAll exReport exResult 1 = [{ exReport with status := "completed" }] ∧
    ({ exReport with status := "completed" } : Report).status = "completed" ∧
    ({ exReport with status := "completed" } : Report).processing_time = none ∧
    (applyResult exReport exResult).processing_time = some 7 ∧
    ({ exReport with status := "completed" } : Report) ≠ exReport ∧
    ({ exReport with status := "completed" } : Report) ≠ applyResult exReport exResult := by
  refine ⟨rfl, rfl, rfl, rfl, ?_, ?_⟩ <;> decide

/-- C2 (code bug): `get_status` computes its four counts in four
independently-locked `get_all_reports` passes, not from one consistent
snapshot.  When the store is empty at the first pass (total) and
`add_report` inserts one processing record before the remaining three
passes, the summary reads total 0, processing 1, completed 0, failed 0,
and the three state counts sum to 1 ≠ 0 - refuting the claim that
processing + completed + failed always equals total. -/
theorem C2_sum_mismatch :
    getStatus (getAllReports []) (getAllReports (addReport [] exReport))
        (getAllReports (addReport [] exReport)) (getAllReports (addReport [] exReport)) =
      (0, 1, 0, 0) ∧
    (0:Nat) ≠ 1 + 0 + 0 := by
  exact ⟨rfl, by decide⟩

/-- C3: for every record in the `processing` state and every analyzer
outcome (exit with any code, timeout, or an unexpected exception), the
background task moves the record to `completed` or to `failed`, performs
exactly one store write-back - a single update carrying the terminal
record - and the record object's status trajectory across the write-back
is `processing` followed only by the one terminal status: once terminal
it never changes again, and no retry occurs for any failure kind. -/
theorem C3_single_terminal_writeback (r : Report) (fp : String) (run : RunResult)
    (elapsed : ℚ) (onDisk : String → Bool) (h : r.status = "processing") :
    ((applyResult r (processHeapDump fp run elapsed onDisk)).status = "completed" ∨
      (applyResult r (processHeapDump fp run elapsed onDisk)).status = "failed") ∧
    (backgroundProcess r (processHeapDump fp run elapsed onDisk)).2 =
      [StoreOp.updateOp (reportId r) (applyResult r (processHeapDump fp run elapsed onDisk))] ∧
    (writeBackStates r (processHeapDump fp run elapsed onDisk)).map Report.status =
      ["processing", (applyResult r (processHeapDump fp run elapsed onDisk)).status,
        (applyResult r (processHeapDump fp run elapsed onDisk)).status,
        (applyResult r (processHeapDump fp run elapsed onDisk)).status,
        (applyResult r (processHeapDump fp run elapsed onDisk)).status,
        (applyResult r (processHeapDump fp run elapsed onDisk)).status] := by
  refine ⟨?_, rfl, ?_⟩
  · cases run with
    | exited code stderr =>
      by_cases hc : code = 0 <;> simp [processHeapDump, applyResult, hc]
    | timedOut => simp [processHeapDump, applyResult]
    | raised m => simp [processHeapDump, applyResult]
  · simp [writeBackStates, applyResult, h]

/-- Witness for C3 at a concrete processing record and a completed run. -/
theorem C3_single_terminal_writeback_witness :
    ((applyResult exReport exResult).status = "completed" ∨
      (applyResult exReport exResult).status = "failed") ∧
    (backgroundProcess exReport exResult).2 =
      [StoreOp.updateOp (reportId exReport) (applyResult exReport exResult)] ∧
    (writeBackStates exReport exResult).map Report.status =
      ["processing", (applyResult exReport exResult).status, (applyResult exReport exResult).status,
        (applyResult exReport exResult).status, (applyResult exReport exResult).status,
        (applyResult exReport exResult).status] :=
  C3_single_terminal_writeback exReport "/dump/web01_20240301.hprof" (RunResult.exited 0 "") 7
    (fun _ => false) rfl

/-- C4: `add_report` keys the record by
`machineName + "_" + detectedAt.strftime('%Y%m%d_%H%M%S')` and overwrites
any existing entry: two reports with the same machine name and the same
second-resolution timestamp share one id; inserting both into any store
with distinct keys (the dict invariant) leaves exactly one entry under
that id, holding the second report - the last insert wins. -/
theorem C4_same_second_collision (st : Store) (r1 r2 : Report)
    (hm : r1.machine_name = r2.machine_name) (ht : r1.timestamp = r2.timestamp)
    (hnd : (st.map Prod.fst).Nodup) :
    reportId r2 = r2.machine_name ++ "_" ++ fmtTimestamp r2.timestamp ∧
    reportId r1 = reportId r2 ∧
    lookupEntry (addReport (addReport st r1) r2) (reportId r2) = some r2 ∧
    (addReport (addReport st r1) r2).filter (fun e => e.1 = reportId r2) =
      [(reportId r2, r2)] := by
  refine ⟨rfl, by simp [reportId, hm, ht], ?_, ?_⟩
  · exact lookupEntry_setEntry_self _ _ _
  · exact filter_setEntry_self _ _ _ (nodup_keys_setEntry st (reportId r1) r1 hnd)

/-- Witness for C4: two files from machine "web01" detected in the same
second collide and the second insert survives alone. -/
theorem C4_same_second_collision_witness :
    reportId exReport2 = exReport2.machine_name ++ "_" ++ fmtTimestamp exReport2.timestamp ∧
    reportId exReport = reportId exReport2 ∧
    lookupEntry (addReport (addReport [] exReport) exReport2) (reportId exReport2) =
      some exReport2 ∧
    (addReport (addReport [] exReport) exReport2).filter (fun e => e.1 = reportId exReport2) =
      [(reportId exReport2, exReport2)] :=
  C4_same_second_collision [] exReport exReport2 rfl rfl (by simp)

/-- C5 fails as stated: on timeout the error message the code stores is the
fixed string "Processing timeout (1 hour exceeded)", not
"processing timeout exceeded". -/
theorem C5_message_counterexample :
    (processHeapDump "/dump/web01_20240301.hprof" RunResult.timedOut 3600
        (fun _ => false)).error_message = some "Processing timeout (1 hour exceeded)" ∧
    (processHeapDump "/dump/web01_20240301.hprof" RunResult.timedOut 3600
        (fun _ => false)).error_message ≠ some "processing timeout exceeded" := by
  exact ⟨rfl, by decide⟩

/-- C5 amended: when the analyzer invocation exceeds the one-hour timeout,
the outcome is `failed` with the fixed error message
"Processing timeout (1 hour exceeded)" (a timeout indication, but not the
exact words the claim quotes), `processing_time = 3600`, and no artifact
references - for every file path, elapsed time and disk state. -/
theorem C5_timeout_outcome (fp : String) (elapsed : ℚ) (onDisk : String → Bool) :
    processHeapDump fp RunResult.timedOut elapsed onDisk =
      { status := "failed", error_message := some "Processing timeout (1 hour exceeded)",
        processing_time := some 3600 } :=
  rfl

/-- C6: on zero exit status the outcome is `completed`, and each artifact
reference is recorded exactly when the derived artifact file
(source directory, source name minus extension, plus the fixed suffix)
exists on disk; in particular a successful run whose artifact files are
both absent still yields `completed` with both artifact fields empty. -/
theorem C6_completed_artifacts (fp stderr : String) (elapsed : ℚ) (onDisk : String → Bool) :
    (processHeapDump fp (RunResult.exited 0 stderr) elapsed onDisk).status = "completed" ∧
    (processHeapDump fp (RunResult.exited 0 stderr) elapsed onDisk).suspects_report =
      (if onDisk (suspectsPath fp) then some (suspectsPath fp) else none) ∧
    (processHeapDump fp (RunResult.exited 0 stderr) elapsed onDisk).overview_report =
      (if onDisk (overviewPath fp) then some (overviewPath fp) else none) ∧
    (processHeapDump fp (RunResult.exited 0 stderr) elapsed onDisk).error_message = none :=
  ⟨rfl, rfl, rfl, rfl⟩

/-- C7 fails as stated on its logging half: an update for an id that was
never inserted leaves the store unchanged and is silently discarded, but
nothing is logged - `update_report` contains no logging call in either
branch - so "logged as a warning" is false. -/
theorem C7_no_warning_counterexample :
    updateReport [] exReport = ([], []) ∧
    (updateReport [] exReport).2.any (fun m => m.level = "warning") = false :=
  ⟨rfl, rfl⟩

/-- C7 amended: `update_report` replaces the entry at the report's id only
when one already exists, and is a no-op otherwise: a result for an id that
was never inserted is silently discarded - with no log record of any kind
emitted, rather than a warning - and never crashes, the store being
unchanged in that case; when the entry exists it is replaced and every
other entry is untouched. -/
theorem C7_update_only_if_present (st : Store) (r : Report) :
    (updateReport st r).2 = [] ∧
    (containsKey st (reportId r) = false → (updateReport st r).1 = st) ∧
    (containsKey st (reportId r) = true →
      lookupEntry (updateReport st r).1 (reportId r) = some r ∧
      ∀ k, k ≠ reportId r → lookupEntry (updateReport st r).1 k = lookupEntry st k) := by
  refine ⟨?_, ?_, ?_⟩
  · by_cases h : containsKey st (reportId r) = true <;> simp [updateReport, h]
  · intro h
    simp [updateReport, h]
  · intro h
    refine ⟨?_, ?_⟩
    · simp [updateReport, h, lookupEntry_setEntry_self]
    · intro k hk
      simp [updateReport, h, lookupEntry_setEntry_other st (reportId r) k r hk]

/-- C8: `get_reports_by_date` parses its input as a calendar date and
returns exactly the stored records whose `detectedAt` date component
equals that date, whatever their time of day; unparsable input yields the
empty list rather than an error. -/
theorem C8_by_date (st : Store) (date_str : String) :
    (parseDate date_str = none → getReportsByDate st date_str = []) ∧
    (∀ d, parseDate date_str = some d →
      ∀ r, r ∈ getReportsByDate st date_str ↔ r ∈ getAllReports st ∧ r.timestamp.date = d) := by
  refine ⟨?_, ?_⟩
  · intro h
    simp [getReportsByDate, h]
  · intro d hd r
    simp [getReportsByDate, hd, List.mem_filter]

/-- C9 fails as stated: for the accepted filename "_x_y_z.hprof" (the first
regex does not match, nothing precedes the first underscore) the greedy
second regex captures "y" - the token between the LAST sandwiching pair of
underscores - not "x", the token between the first and a later underscore;
and for "a.b.hprof" (no underscore at all) the third regex captures "a",
the token before the FIRST dot, not "a.b", the filename without its
extension. -/
theorem C9_pattern_counterexample :
    extractMachineName "_x_y_z.hprof" = "y" ∧ ("y" : String) ≠ "x" ∧
    extractMachineName "a.b.hprof" = "a" ∧ splitextBase "a.b.hprof" = "a.b" ∧
    ("a" : String) ≠ "a.b" := by
  refine ⟨rfl, by decide, rfl, rfl, by decide⟩

/-- C9 amended: machine-name extraction is total and deterministic - a pure
function returning a nonempty string for every accepted filename - and
follows the ordered first-match-wins cascade of the source: (1) the token
before the first underscore, when nonempty and an underscore follows; (2)
otherwise the token sandwiched between the last pair of underscores that
enclose a nonempty underscore-free token; (3) otherwise the token before
the first dot, when nonempty and a dot follows; (4) otherwise the
filename without its extension. -/
theorem C9_extraction_total (filename : String) (h : isHeapDumpName filename = true) :
    extractMachineName filename ≠ "" ∧
    (∀ tok, pat1 filename.data = some tok → extractMachineName filename = String.mk tok) ∧
    (∀ tok, pat1 filename.data = none → pat2 filename.data = some tok →
      extractMachineName filename = String.mk tok) ∧
    (∀ tok, pat1 filename.data = none → pat2 filename.data = none →
      pat3 filename.data = some tok → extractMachineName filename = String.mk tok) ∧
    (pat1 filename.data = none → pat2 filename.data = none → pat3 filename.data = none →
      extractMachineName filename = splitextBase filename) := by
  have hne : filename ≠ "" := by
    intro hx
    subst hx
    exact absurd h (by decide)
  have hmk : ∀ tok : List Char, tok ≠ [] → String.mk tok ≠ "" := by
    intro tok htok hx
    apply htok
    simpa using congrArg String.data hx
  refine ⟨?_, ?_, ?_, ?_, ?_⟩
  · cases h1 : pat1 filename.data with
    | some tok =>
      rw [show extractMachineName filename = String.mk tok by simp [extractMachineName, h1]]
      exact hmk tok (pat1_some_ne_nil filename.data tok h1)
    | none =>
      cases h2 : pat2 filename.data with
      | some tok =>
        rw [show extractMachineName filename = String.mk tok by
          simp [extractMachineName, h1, h2]]
        exact hmk tok (pat2_some_ne_nil filename.data tok h2)
      | none =>
        cases h3 : pat3 filename.data with
        | some tok =>
          rw [show extractMachineName filename = String.mk tok by
            simp [extractMachineName, h1, h2, h3]]
          exact hmk tok (pat3_some_ne_nil filename.data tok h3)
        | none =>
          rw [show extractMachineName filename = splitextBase filename by
            simp [extractMachineName, h1, h2, h3]]
          exact splitextBase_ne_empty filename hne
  · intro tok h1
    simp [extractMachineName, h1]
  · intro tok h1 h2
    simp [extractMachineName, h1, h2]
  · intro tok h1 h2 h3
    simp [extractMachineName, h1, h2, h3]
  · intro h1 h2 h3
    simp [extractMachineName, h1, h2, h3]

/-- Witness for C9 at the accepted filename "x.hprof". -/
theorem C9_extraction_total_witness : extractMachineName "x.hprof" ≠ "" :=
  (C9_extraction_total "x.hprof" (by decide)).1

/-- C10: a file-creation event is forwarded for processing exactly when the
event is not a directory and the path, lowercased, ends with ".hprof",
".dump" or ".bin"; every other event is ignored - `on_created` returns
before any record is created, and a forwarded event carries the path
unchanged. -/
theorem C10_intake_filter (is_directory : Bool) (p : String) :
    (onCreated is_directory p = some p ↔
      is_directory = false ∧
        (endsWithStr (lowerStr p) ".hprof" = true ∨ endsWithStr (lowerStr p) ".dump" = true ∨
          endsWithStr (lowerStr p) ".bin" = true)) ∧
    (onCreated is_directory p = none ∨ onCreated is_directory p = some p) := by
  cases is_directory with
  | true => simp [onCreated]
  | false =>
    by_cases h : isHeapDumpName p = true
    · have h2 := h
      rw [isHeapDumpName_eq] at h2
      simp only [Bool.or_eq_true] at h2
      refine ⟨?_, Or.inr (by simp [onCreated, h])⟩
      simp [onCreated, h]
      tauto
    · have h2 := h
      rw [isHeapDumpName_eq] at h2
      simp only [Bool.or_eq_true, not_or, Bool.not_eq_true] at h2
      refine ⟨?_, Or.inl (by simp [onCreated, h])⟩
      simp [onCreated, h, h2.1, h2.2.1, h2.2.2]

end HeapMonitor
